import Mathlib

/-!
Verification of the AI-personas event/workflow pipeline.

This file gives a shallow embedding, in Lean, of the pieces of the Go
repository `jaypaulb/AI-personas` that its natural-language specification
talks about: the pure string helpers (`internal/atom/string.go`), the
exponential-backoff retry policy (`internal/atom`, file with
`CalculateBackoff` and `RetryWithResult`), the retry loop wrapping the
Gemini `AnswerQuestion` call, the SSE reconnect loop and the event
classifier with its debounce gate (`internal/canvus/events.go` and the
`EventMonitor` variant), and the Q&A workflow orchestrator
(`internal/gemini/aiquestion.go`).

Go strings are modelled as `List Char`; Go `sync.Map`s keyed by strings
are modelled as association lists; external calls (the Canvus CRUD
client, the Gemini client, timers, the random source) are modelled as
explicit parameters carrying their observed outcomes, so that every
definition stays executable and every concrete run can be settled by
`decide`. Time is kept abstract: delays are modelled as the exact
rational (or natural) numbers the Go code computes, sleeps are recorded,
not performed.
-/

namespace AIPersonas

/-! ## Go string primitives

Models of the `strings` standard-library functions the repository uses.
All inputs of interest are ASCII, for which `Char.toLower` agrees with
Go's `unicode.ToLower` and the whitespace set below agrees with
`unicode.IsSpace`. -/

/-- Model of Go `strings.HasPrefix s pre` on rune lists. -/
def goStartsWith : List Char → List Char → Bool
  | _, [] => true
  | [], _ :: _ => false
  | a :: s, b :: p => a == b && goStartsWith s p

/-- Model of Go `strings.Contains s sub` on rune lists: some (possibly
empty) substring of `s` equals `sub`. -/
def goContains : List Char → List Char → Bool
  | [], sub => sub.isEmpty
  | c :: t, sub => goStartsWith (c :: t) sub || goContains t sub

/-- Model of Go `strings.HasSuffix s suf` on rune lists. -/
def goEndsWith (s suf : List Char) : Bool :=
  goStartsWith s.reverse suf.reverse

/-- Model of Go `strings.ToLower` (ASCII range; the repository only
compares ASCII titles and colors). -/
def goToLower (s : List Char) : List Char :=
  s.map Char.toLower

/-- The whitespace set of Go `unicode.IsSpace`, which `strings.TrimSpace`
trims. -/
def goIsSpace (c : Char) : Bool :=
  c == ' ' || c == '\t' || c == '\n' || c == '\x0b' || c == '\x0c' || c == '\r' ||
  c.val == 0x85 || c.val == 0xA0 || c.val == 0x1680 ||
  (0x2000 ≤ c.val && c.val ≤ 0x200A) ||
  c.val == 0x2028 || c.val == 0x2029 || c.val == 0x202F ||
  c.val == 0x205F || c.val == 0x3000

/-- Model of Go `strings.TrimSpace`. -/
def goTrimSpace (s : List Char) : List Char :=
  ((s.dropWhile goIsSpace).reverse.dropWhile goIsSpace).reverse

/-- Model of Go `strings.TrimSuffix s suf`. -/
def goTrimSuffixOf (s suf : List Char) : List Char :=
  if goEndsWith s suf then s.take (s.length - suf.length) else s

/-- Model of Go `strings.EqualFold` (ASCII simple folding, which is what
the compared titles use). -/
def goEqualFold (a b : List Char) : Bool :=
  goToLower a == goToLower b

/-- The fixed word list of `atom.IsQuestion`
(`internal/atom/string.go`). -/
def questionWords : List (List Char) :=
  ["what", "why", "how", "when", "where", "who", "which", "is", "are",
   "do", "does", "can", "could", "would", "should"].map String.toList

/-- `atom.IsQuestion` (`internal/atom/string.go` lines 15–28): lowercase
the text; true if it contains `?`, else scan the fixed word list and
return true on the first word `w` with `HasPrefix lower (w ++ " ")` or
`Contains lower (w ++ " ")`. -/
def IsQuestion (text : List Char) : Bool :=
  let lower := goToLower text
  if goContains lower ['?'] then true
  else questionWords.any fun w =>
    goStartsWith lower (w ++ [' ']) || goContains lower (w ++ [' '])

/-- The predicate C10 states in the spec's words: the lowercased text
contains `?` or contains some fixed question word followed by a space at
any position.  (To be compared with `IsQuestion`, whose Go source also
carries a redundant `HasPrefix` disjunct.) -/
def IsQuestionSpec (text : List Char) : Bool :=
  let lower := goToLower text
  goContains lower ['?'] ||
    questionWords.any fun w => goContains lower (w ++ [' '])

/-- `CheckQuestionPresent` (`internal/gemini/aiquestion.go` lines
178–190): fetch the note (`none` models a `GetNote` error, which yields
`false`); otherwise true iff the trimmed text ends in `?`. -/
def CheckQuestionPresent (note : Option (List Char)) : Bool :=
  match note with
  | none => false
  | some text => goEndsWith (goTrimSpace text) ['?']

/-! ## Retry policy: exponential backoff with jitter

`CalculateBackoff` (package `atom`).  The Go code computes in `float64`;
for the delays actually reachable here (nanosecond counts times powers
of two, far below 2^53) `float64` arithmetic is exact, so the model uses
exact rationals.  The random draw `rand.Float64()` is passed in as a
parameter `r ∈ [0,1]`. -/

/-- The pre-jitter part of `atom.CalculateBackoff`:
`delay := initialDelay * 2^(attempt-1)`, capped at `maxDelay`. -/
def CalculateBackoffPre (attempt : ℕ) (initialDelay maxDelay : ℚ) : ℚ :=
  let delay := initialDelay * 2 ^ (attempt - 1)
  if maxDelay < delay then maxDelay else delay

/-- `atom.CalculateBackoff` (lines 105–128): pre-jitter delay, then, when
`jitterFactor > 0`, add `(r*2 - 1) * (delay * jitterFactor)` where `r`
models `rand.Float64()`, then clamp negatives to `0`. -/
def CalculateBackoff (attempt : ℕ) (initialDelay maxDelay jitterFactor r : ℚ) : ℚ :=
  let delay := CalculateBackoffPre attempt initialDelay maxDelay
  let delay := if 0 < jitterFactor then delay + (r * 2 - 1) * (delay * jitterFactor) else delay
  if delay < 0 then 0 else delay

/-! ## Retry loops

`RetryWithResult` (package `atom`) retries an operation up to
`MaxAttempts` times; the Gemini `AnswerQuestion` wrapper (package
`gemini`) retries `Chat.Send` with an additional retryable/non-retryable
classification.  Both are modelled over a function giving each attempt's
outcome; sleeps do not affect the returned value and are omitted. -/

/-- Result record of `atom.RetryWithResult`. -/
structure RetryResult where
  attempts : ℕ
  lastErr : Option String
  success : Bool
deriving DecidableEq, Repr

/-- The loop body of `atom.RetryWithResult` (lines 68–98): `outcomes i`
is attempt `i`'s error (`none` = success); the second argument is the
number of attempts still allowed including the current one.  With `0`
attempts allowed the Go loop never runs and the zero-value result is
returned. -/
def retryGo (outcomes : ℕ → Option String) : ℕ → ℕ → RetryResult
  | _attempt, 0 => { attempts := 0, lastErr := none, success := false }
  | attempt, left + 1 =>
    match outcomes attempt with
    | none => { attempts := attempt, lastErr := none, success := true }
    | some e =>
      if left = 0 then { attempts := attempt, lastErr := some e, success := false }
      else retryGo outcomes (attempt + 1) left

/-- `atom.RetryWithResult` (lines 51–101): a zero `MaxAttempts` is
defaulted to `5`, then the loop runs from attempt `1`.  (The delay
fields only affect sleeping and are not part of the returned value.) -/
def RetryWithResult (maxAttempts : ℕ) (outcomes : ℕ → Option String) : RetryResult :=
  retryGo outcomes 1 (if maxAttempts = 0 then 5 else maxAttempts)

/-- Error value of a Gemini call, tagged with the classification
`isGeminiRetryableError` gives it. -/
structure GeminiErr where
  msg : String
  retryable : Bool
deriving DecidableEq, Repr

/-- The retry loop of `gemini.Client.AnswerQuestion` (the loop over
`sess.Chat.Send`): on success break; on a non-retryable error break; on
the last allowed attempt break; otherwise back off and retry.  Returns
the final result and the number of attempts made.  (`attempt, 0` models
`geminiMaxRetries < 1`, whose loop never runs; the repository's constant
is `5`, so theorems assume at least one attempt.) -/
def geminiRetryLoop (outcomes : ℕ → Except GeminiErr String) :
    ℕ → ℕ → Except GeminiErr String × ℕ
  | attempt, 0 => (.ok "", attempt)
  | attempt, left + 1 =>
    match outcomes attempt with
    | .ok s => (.ok s, attempt)
    | .error e =>
      if e.retryable = false then (.error e, attempt)
      else if left = 0 then (.error e, attempt)
      else geminiRetryLoop outcomes (attempt + 1) left

/-- `gemini.Client.AnswerQuestion`'s retry wrapper around the outbound
`Chat.Send` call: attempts run from `1` to `maxRetries`
(= `geminiMaxRetries`, 5 in the source). -/
def AnswerQuestionRetry (outcomes : ℕ → Except GeminiErr String) (maxRetries : ℕ) :
    Except GeminiErr String × ℕ :=
  geminiRetryLoop outcomes 1 maxRetries

/-! ## Stream reconnector

`EventMonitor.SubscribeAndDetectTriggers` (the `EventMonitor` variant of
`events.go`, lines 115–170) loops: subscribe; on a subscribe error bump
the retry count (giving up past `maxRetries`), sleep the current
backoff, double it up to `maxBackoff`; on a successful connection reset
backoff and retry count, stream until disconnect or cancellation, and on
disconnect sleep the current backoff before reconnecting.  Delays are
modelled in whole seconds (the constants are 1s, 30s). -/

/-- SSE reconnection constant `initialBackoff = 1 * time.Second`
(seconds). -/
def initialBackoff : ℕ := 1

/-- SSE reconnection constant `maxBackoff = 30 * time.Second`
(seconds). -/
def maxBackoff : ℕ := 30

/-- SSE reconnection constant `maxRetries = 10`. -/
def maxRetries : ℕ := 10

/-- Outcome of one iteration of the subscribe loop, as observed from the
environment: the subscription attempt failed; it succeeded and the
stream later hit EOF or a read error (`processStream` returned `true`);
or it succeeded and the context was cancelled (`processStream` returned
`false`). -/
inductive ConnOutcome
  | subscribeFailed
  | streamedThenDisconnected
  | streamedThenCancelled
deriving DecidableEq, Repr

/-- How a finite run of the reconnect loop ended: gave up after too many
consecutive subscribe failures, stopped on cancellation, or the supplied
trace ran out with the loop still going. -/
inductive ReconnectEnd
  | gaveUp
  | stopped
  | stillRunning
deriving DecidableEq, Repr

/-- The reconnect loop of `SubscribeAndDetectTriggers`, run against a
finite trace of iteration outcomes, carrying the mutable `backoff` and
`retryCount` locals; returns the list of slept delays (in order) and how
the run ended. -/
def reconnectLoop : List ConnOutcome → ℕ → ℕ → List ℕ × ReconnectEnd
  | [], _backoff, _retryCount => ([], .stillRunning)
  | .subscribeFailed :: rest, backoff, retryCount =>
    if maxRetries < retryCount + 1 then ([], .gaveUp)
    else
      let next := reconnectLoop rest (min maxBackoff (backoff * 2)) (retryCount + 1)
      (backoff :: next.1, next.2)
  | .streamedThenDisconnected :: rest, _backoff, _retryCount =>
    -- successful connection resets backoff and retryCount before streaming;
    -- after the disconnect the loop sleeps the (freshly reset) backoff
    let next := reconnectLoop rest initialBackoff 0
    (initialBackoff :: next.1, next.2)
  | .streamedThenCancelled :: _, _, _ => ([], .stopped)

/-- Entry point of the reconnect loop: `backoff := initialBackoff`,
`retryCount := 0`. -/
def SubscribeAndDetectTriggers (trace : List ConnOutcome) : List ℕ × ReconnectEnd :=
  reconnectLoop trace initialBackoff 0

/-! ## Event classifier and debounce gate

`EventMonitor.processWidgetEvent` with `handleQnoteQuestionDetection`
(the `EventMonitor` variant of `events.go`, lines 209–296; the inline
version at `internal/canvus/events.go` lines 143–199 has the same
branch structure).  A raw record is modelled by the fields the code
extracts; the per-note debounce registry (`questionHandlers`,
`debounceTimers`, `latestEvents`) is modelled by association lists, with
timers named by a counter so that `Stop` can be modelled as marking a
timer id stopped (a timer stopped inside the quiet period never runs its
function). -/

/-- Association-list lookup, modelling `sync.Map.Load`. -/
def alookup {κ α : Type} [DecidableEq κ] : List (κ × α) → κ → Option α
  | [], _ => none
  | (k', v) :: rest, k => if k' = k then some v else alookup rest k

/-- Association-list store, modelling `sync.Map.Store`. -/
def ainsert {κ α : Type} [DecidableEq κ] : List (κ × α) → κ → α → List (κ × α)
  | [], k, v => [(k, v)]
  | (k', v') :: rest, k, v =>
    if k' = k then (k, v) :: rest else (k', v') :: ainsert rest k v

/-- Association-list delete, modelling `sync.Map.Delete`. -/
def aerase {κ α : Type} [DecidableEq κ] : List (κ × α) → κ → List (κ × α)
  | [], _ => []
  | (k', v') :: rest, k =>
    if k' = k then aerase rest k else (k', v') :: aerase rest k

/-- The fields of a raw stream record that `processWidgetEvent` reads
(`widget_type`, `id`, `title`, `text`, `background_color`). -/
structure RawRec where
  widType : List Char
  id : List Char
  title : List Char
  text : List Char
  bg : List Char
deriving DecidableEq, Repr

/-- `canvus.WidgetEvent` as built by `processWidgetEvent` (the `Data`
field holds the raw record). -/
structure WidgetEvent where
  id : List Char
  type : List Char
  title : List Char
  text : List Char
deriving DecidableEq, Repr

/-- The trigger kinds of `internal/types/events.go` (minus
`TriggerNone`, since "no trigger" is `Option.none` here). -/
inductive TriggerType
  | bacCompleteImage
  | newAIQuestion
  | createPersonasNote
  | qnoteQuestionDetected
  | connectorCreated
deriving DecidableEq, Repr

/-- `canvus.EventTrigger`. -/
structure EventTrigger where
  type : TriggerType
  widget : WidgetEvent
deriving DecidableEq, Repr

/-- The debounce-gate state owned by the `EventMonitor`:
`latestEvents : noteID → latest WidgetEvent`,
`timers : noteID → id of the currently scheduled timer`,
`stopped`: timer ids whose `Stop` was called before expiry,
`nextTimerId`: name supply for `time.AfterFunc`. -/
structure DebounceState where
  latestEvents : List (List Char × WidgetEvent)
  timers : List (List Char × ℕ)
  stopped : List ℕ
  nextTimerId : ℕ
deriving DecidableEq, Repr

/-- The empty debounce state. -/
def DebounceState.init : DebounceState := ⟨[], [], [], 0⟩

/-- The debounce body of `handleQnoteQuestionDetection` (lines 277–295):
store the event as the key's latest value, stop any existing timer, and
schedule a fresh one for the quiet period. -/
def observeDebounce (st : DebounceState) (w : WidgetEvent) : DebounceState :=
  let st := { st with latestEvents := ainsert st.latestEvents w.id w }
  let st :=
    match alookup st.timers w.id with
    | some t => { st with stopped := t :: st.stopped }
    | none => st
  { st with
    timers := ainsert st.timers w.id st.nextTimerId,
    nextTimerId := st.nextTimerId + 1 }

/-- `handleQnoteQuestionDetection` (lines 257–296): only note-like
records with a non-empty id and the question-note sentinel title are
considered; an active registration (`questionHandlers`) with matching
expected color routes the event into the debounce gate, anything else
leaves the state untouched.  `handlers : noteID → expected color`. -/
def handleQnoteQuestionDetection (handlers : List (List Char × List Char))
    (st : DebounceState) (w : WidgetEvent) (bg : List Char) : DebounceState :=
  if w.type ≠ "Note".toList ∨ w.id = [] ∨ goEqualFold w.title "New_AI_Question".toList = false then
    st
  else
    match alookup handlers w.id with
    | none => st
    | some color =>
      if goToLower (goTrimSpace bg) = goToLower (goTrimSpace color) then
        observeDebounce st w
      else st

/-- The body of the `time.AfterFunc` closure scheduled by the debounce
gate, for the timer named `tid` on key `noteID`: a timer stopped before
expiry never runs; otherwise the closure reads the key's **current**
latest event and, if its text looks like a question, emits one
`TriggerQnoteQuestionDetected` trigger carrying that event (and invokes
the registered handler with it). -/
def fireDebounceTimer (st : DebounceState) (noteID : List Char) (tid : ℕ) :
    Option EventTrigger :=
  if tid ∈ st.stopped then none
  else
    match alookup st.latestEvents noteID with
    | none => none
    | some latest =>
      if IsQuestion latest.text then some ⟨.qnoteQuestionDetected, latest⟩
      else none

/-- `processWidgetEvent` (lines 209–254): the classification rules in
their source order, each `return`/`continue` modelled by the
if-else chain.  Returns the directly emitted trigger (if any) and the
debounce state after the event. -/
def processWidgetEvent (handlers : List (List Char × List Char))
    (st : DebounceState) (raw : RawRec) : Option EventTrigger × DebounceState :=
  let widget : WidgetEvent := ⟨raw.id, raw.widType, raw.title, raw.text⟩
  let imageTitle := goToLower (goTrimSuffixOf (goTrimSpace raw.title) ".png".toList)
  if raw.widType = "Image".toList ∧ imageTitle = "bac_complete".toList then
    (some ⟨.bacCompleteImage, widget⟩, st)
  else if raw.widType = "Note".toList ∧ goEqualFold raw.title "New_AI_Question".toList = true then
    -- the branch returns unconditionally after the color check
    let bgLower := goToLower (goTrimSpace raw.bg)
    (if bgLower = "#ffffffff".toList ∨ bgLower = "#ffffff".toList then
       some ⟨.newAIQuestion, widget⟩
     else none,
     st)
  else if raw.widType = "Note".toList ∧ goTrimSpace raw.title = "Create_Personas".toList then
    (some ⟨.createPersonasNote, widget⟩, st)
  else if raw.widType = "Connector".toList then
    (some ⟨.connectorCreated, widget⟩, st)
  else
    (none, handleQnoteQuestionDetection handlers st widget raw.bg)

/-- An event at the debounce gate: an observation arriving (a raw
note-like record entering `handleQnoteQuestionDetection`) or the expiry
of the timer named `tid` for a key. -/
inductive GateEvent
  | obs (w : WidgetEvent) (bg : List Char)
  | fire (noteID : List Char) (tid : ℕ)

/-- Run the debounce gate over a trace of observations and timer
expiries, collecting every emitted trigger in order. -/
def runGateTrace (handlers : List (List Char × List Char)) :
    List GateEvent → DebounceState → List EventTrigger
  | [], _ => []
  | .obs w bg :: rest, st =>
    runGateTrace handlers rest (handleQnoteQuestionDetection handlers st w bg)
  | .fire noteID tid :: rest, st =>
    match fireDebounceTimer st noteID tid with
    | some trig => trig :: runGateTrace handlers rest st
    | none => runGateTrace handlers rest st

/-! ## Processing guard

`QuestionWorkflow.processingList` is a `sync.Map` used as a set of
note ids; `IsQnoteProcessing` claims via `LoadOrStore` (returning
whether the id was already claimed) and `MarkProcessingComplete` /
the deferred `qnoteProcessingList.Delete` releases via `Delete`.  The
set is modelled as the list of claimed ids (each id at most once when
grown only through these operations). -/

/-- `IsQnoteProcessing` (`aiquestion.go` lines 118–124), i.e.
`processingList.LoadOrStore(id, true)`: returns whether the id was
already claimed, and the updated claim set (the id is stored when it was
absent). -/
def IsQnoteProcessing (l : List String) (id : String) : Bool × List String :=
  if id ∈ l then (true, l) else (false, id :: l)

/-- `MarkProcessingComplete` / `qnoteProcessingList.Delete`
(`aiquestion.go` lines 68–70): remove the id from the claim set. -/
def MarkProcessingComplete (l : List String) (id : String) : List String :=
  l.filter (fun x => x ≠ id)

/-! ## Workflow orchestrator

`HandleAIQuestion` and `AnswerQuestionWithCache`
(`internal/gemini/aiquestion.go`).  The outcomes of the remote calls the
workflow makes (widget fetches, persona generation, question polling,
Gemini answer generation, note creation) are passed in as a `WfEnv`
record; the process-wide registries (`processingList`, `helperNotes`)
and the artifacts the run creates are carried in a `WfState`. -/

/-- One fan-out slot of the parallel answer-generation stage:
`answers[i]` and `answerErrors[i]`. -/
structure Slot where
  answer : String
  err : Option String
deriving DecidableEq, Repr

/-- `MinRequiredAnswers = 1` (`aiquestion.go` line 21). -/
def MinRequiredAnswers : ℕ := 1

/-- A slot counts as successful when `answers[i] != "" &&
answerErrors[i] == nil` (`aiquestion.go` lines 523–529). -/
def slotSuccessful (s : Slot) : Bool :=
  decide (s.answer ≠ "" ∧ s.err = none)

/-- The success count of the answer-generation stage. -/
def successfulAnswers (slots : List Slot) : ℕ :=
  (slots.filter slotSuccessful).length

/-- The answer-note creation stage (`aiquestion.go` lines 547–590): slot
`i` is skipped (its `answerNoteIDs[i]` stays `""`) when its answer
generation failed; otherwise one `CreateNote` call is made, whose
outcome `createResult i` is the created id (or `none` on a creation
error or empty returned id, which also leaves `""`). -/
def createAnswerNotes (slots : List Slot) (createResult : ℕ → Option String) :
    List String :=
  slots.enum.map fun p =>
    if slotSuccessful p.2 then
      match createResult p.1 with
      | some noteId => noteId
      | none => ""
    else ""

/-- The slot indices at which the note-creation stage actually calls
`CreateNote` (each exactly once; failed slots are never retried). -/
def answerNoteAttempts (slots : List Slot) : List ℕ :=
  (slots.enum.filter fun p => slotSuccessful p.2).map fun p => p.1

/-- The mutable registries of the Q&A workflow plus the artifacts a run
creates: the processing claim set, the `qnoteHelperNotes` map
(qnote id → tracked helper note id), the qnotes for which a
timeout-notice note was created, and the `answeredNotes` set. -/
structure WfState where
  processing : List String
  helperNotes : List (String × String)
  timeoutNotes : List String
  answered : List String
deriving DecidableEq, Repr

/-- The empty workflow state. -/
def WfState.init : WfState := ⟨[], [], [], []⟩

/-- The exit paths of `HandleAIQuestion` (including those taken inside
`AnswerQuestionWithCache`, whose deferred release runs on each of
them). -/
inductive WfExit
  | alreadyProcessing
  | widgetsFetchFailed
  | personaCreateFailed
  | widgetsRefreshFailed
  | personasStillMissing
  | questionTimeout
  | geminiInitFailed
  | personasUnavailable
  | belowMinimum
  | completed
deriving DecidableEq, Repr

/-- Outcomes of the workflow's external calls, as observed from the
environment: the initial `GetWidgets` fetch, the two
`CheckPersonasPresentWithCache` checks around `CreatePersonas`, the
widget refresh, `CheckQuestionPresent`, the result of
`WaitForQuestionText`, the Gemini client construction and persona
fetch inside `AnswerQuestionWithCache`, the answer-generation slots,
the per-slot `CreateNote` outcomes, and the ids of the helper notes the
run creates. -/
structure WfEnv where
  initialWidgetsOk : Bool
  personasPresent1 : Bool
  personaHelperID : String
  createPersonasOk : Bool
  refreshWidgetsOk : Bool
  personasPresent2 : Bool
  questionPresent : Bool
  questionHelperID : String
  questionDetected : Bool
  geminiInitOk : Bool
  personasFetchOk : Bool
  slots : List Slot
  createResult : ℕ → Option String
  answerHelperID : String

/-- `AnswerQuestionWithCache` (`aiquestion.go` lines 340–834), reduced
to the state it touches: on entry it tracks the answer-generation helper
note; `defer qnoteProcessingList.Delete(qnoteID)` releases the claim on
**every** exit path of this function; early returns on Gemini client
construction or persona-fetch failure create nothing; fewer successful
answers than `MinRequiredAnswers` aborts before any answer note is
created; otherwise answer notes are created for exactly the successful
slots, the qnote is marked answered and the tracked helper note is
deleted.  Returns the new state, the exit taken, and `answerNoteIDs`. -/
def AnswerQuestionWithCache (env : WfEnv) (st : WfState) (noteID : String) :
    WfState × WfExit × List String :=
  let st := { st with helperNotes := ainsert st.helperNotes noteID env.answerHelperID }
  let release := fun (s : WfState) =>
    { s with processing := MarkProcessingComplete s.processing noteID }
  if env.geminiInitOk = false then (release st, .geminiInitFailed, [])
  else if env.personasFetchOk = false then (release st, .personasUnavailable, [])
  else if successfulAnswers env.slots < MinRequiredAnswers then
    (release st, .belowMinimum, [])
  else
    let noteIDs := createAnswerNotes env.slots env.createResult
    let st := { st with
      answered := noteID :: st.answered,
      helperNotes := aerase st.helperNotes noteID }
    (release st, .completed, noteIDs)

/-- `HandleAIQuestion` (`aiquestion.go` lines 1010–1109): claim the note
via `IsQnoteProcessing`; fetch widgets (an error returns early); ensure
personas (tracking and untracking a persona helper note, with early
returns on generation failure, refresh failure, or still-missing
personas); if no question is present, track the question helper note
and wait — a timeout creates the timeout-notice note, deletes the
tracked helper, releases the claim and returns; otherwise the flow
reaches `OnQuestionDetectedWithCache`, which runs
`AnswerQuestionWithCache`. -/
def HandleAIQuestion (env : WfEnv) (st : WfState) (noteID : String) :
    WfState × WfExit :=
  if (IsQnoteProcessing st.processing noteID).1 then (st, .alreadyProcessing)
  else
    let st := { st with processing := (IsQnoteProcessing st.processing noteID).2 }
    if env.initialWidgetsOk = false then (st, .widgetsFetchFailed)
    else
      let stage :=
        if env.personasPresent1 then (st, none)
        else
          let st := { st with helperNotes := ainsert st.helperNotes noteID env.personaHelperID }
          if env.createPersonasOk = false then
            ({ st with helperNotes := aerase st.helperNotes noteID },
             some WfExit.personaCreateFailed)
          else if env.refreshWidgetsOk = false then
            -- note: this early return neither releases the claim nor
            -- removes the tracked persona helper note
            (st, some WfExit.widgetsRefreshFailed)
          else if env.personasPresent2 = false then
            ({ st with helperNotes := aerase st.helperNotes noteID },
             some WfExit.personasStillMissing)
          else
            ({ st with helperNotes := aerase st.helperNotes noteID }, none)
      match stage with
      | (st, some e) => (st, e)
      | (st, none) =>
        if env.questionPresent = false then
          let st := { st with helperNotes := ainsert st.helperNotes noteID env.questionHelperID }
          if env.questionDetected = false then
            let st := { st with timeoutNotes := noteID :: st.timeoutNotes }
            let st := { st with helperNotes := aerase st.helperNotes noteID }
            let st := { st with processing := MarkProcessingComplete st.processing noteID }
            (st, .questionTimeout)
          else
            let r := AnswerQuestionWithCache env st noteID
            (r.1, r.2.1)
        else
          let r := AnswerQuestionWithCache env st noteID
          (r.1, r.2.1)

/-- `DefaultQuestionTimeout = 5 * time.Minute` (seconds). -/
def DefaultQuestionTimeout : ℕ := 300

/-- Model of Go `strconv.Atoi` on the non-negative decimal strings used
for `QUESTION_TIMEOUT` (other shapes fall through to
`time.ParseDuration`). -/
def goAtoi (s : List Char) : Option ℕ :=
  if s ≠ [] ∧ s.all Char.isDigit then
    some (s.foldl (fun acc c => acc * 10 + (c.toNat - '0'.toNat)) 0)
  else none

/-- `getQuestionTimeout` (`aiquestion.go` lines 30–45): no
`QUESTION_TIMEOUT` value gives the 5-minute default; an integer value is
seconds; otherwise `time.ParseDuration` (abstracted as `parseDur`) is
tried, with an invalid value falling back to the default.  Result in
seconds. -/
def getQuestionTimeout (parseDur : List Char → Option ℕ)
    (envVar : Option (List Char)) : ℕ :=
  match envVar with
  | none => DefaultQuestionTimeout
  | some s =>
    match goAtoi s with
    | some n => n
    | none =>
      match parseDur s with
      | some d => d
      | none => DefaultQuestionTimeout

/-- `WaitForQuestionText` (`aiquestion.go` lines 968–1006), over the
finite sequence of `GetNote` results its polling loop observes before
the timeout (a `none` poll is a `GetNote` error): it detects a question
iff some successful poll's trimmed text ends in `?`; if no poll in the
window does, the timeout fires and it returns `false`. -/
def WaitForQuestionText (polls : List (Option (List Char))) : Bool :=
  polls.any fun r =>
    match r with
    | none => false
    | some t => goEndsWith (goTrimSpace t) ['?']

/-! ## Helper lemmas -/

/-- A prefix occurrence is a containment occurrence. -/
lemma goContains_of_goStartsWith :
    ∀ s sub : List Char, goStartsWith s sub = true → goContains s sub = true := by
  intro s sub h
  cases s with
  | nil =>
    cases sub with
    | nil => rfl
    | cons b p => simp [goStartsWith] at h
  | cons c t => simp [goContains, h]

/-- The `HasPrefix` disjunct inside `IsQuestion`'s loop is absorbed by the
`Contains` disjunct. -/
lemma goStartsWith_or_goContains (s sub : List Char) :
    (goStartsWith s sub || goContains s sub) = goContains s sub := by
  cases h : goStartsWith s sub
  · simp
  · simp [goContains_of_goStartsWith s sub h]

/-- After `sync.Map.Delete`, the key is gone. -/
lemma alookup_aerase_self {κ α : Type} [DecidableEq κ] :
    ∀ (m : List (κ × α)) (k : κ), alookup (aerase m k) k = none := by
  intro m k
  induction m with
  | nil => rfl
  | cons p rest ih =>
    by_cases h : p.1 = k
    · simpa [aerase, h] using ih
    · simpa [aerase, alookup, h] using ih

/-- Releasing removes the id. -/
lemma not_mem_markProcessingComplete (l : List String) (id : String) :
    id ∉ MarkProcessingComplete l id := by
  simp [MarkProcessingComplete]

/-- Releasing twice is releasing once. -/
lemma markProcessingComplete_idem (l : List String) (id : String) :
    MarkProcessingComplete (MarkProcessingComplete l id) id
      = MarkProcessingComplete l id := by
  simp [MarkProcessingComplete, List.filter_filter]

/-- Releasing an unclaimed id is a no-op. -/
lemma markProcessingComplete_of_not_mem (l : List String) (id : String)
    (h : id ∉ l) : MarkProcessingComplete l id = l := by
  rw [MarkProcessingComplete, List.filter_eq_self]
  intro a ha
  simp only [ne_eq, decide_eq_true_eq]
  rintro rfl
  exact h ha

/-! ## Claim theorems -/

/-- **C10.** For every string `t`, `IsQuestion t` is true iff the
lowercased `t` contains `?` or contains one of the fifteen fixed
question words followed by a space at any position; in particular it
accepts `"this is a test"`, which does not end in `?`, while the
workflow's separate `CheckQuestionPresent` accepts exactly notes whose
trimmed text ends with `?`. -/
theorem IsQuestion_spec_and_CheckQuestionPresent :
    (∀ t : List Char, IsQuestion t = IsQuestionSpec t) ∧
    questionWords.length = 15 ∧
    IsQuestion "this is a test".toList = true ∧
    goEndsWith (goTrimSpace "this is a test".toList) ['?'] = false ∧
    CheckQuestionPresent (some "this is a test".toList) = false ∧
    CheckQuestionPresent none = false ∧
    (∀ t : List Char,
        CheckQuestionPresent (some t) = goEndsWith (goTrimSpace t) ['?']) := by
  refine ⟨?_, by decide, by decide, by decide, by decide, rfl, fun t => rfl⟩
  intro t
  unfold IsQuestion IsQuestionSpec
  cases h : goContains (goToLower t) ['?']
  · simp [h, goStartsWith_or_goContains]
  · simp [h]

/-- **C5.** For every attempt `k ≥ 1` the pre-jitter backoff delay equals
`min maxDelay (initialDelay * 2^(k-1))`, is non-decreasing in `k` and
never exceeds `maxDelay`; the post-jitter delay (pre-jitter delay plus a
uniform term in `[-delay*jitterFactor, +delay*jitterFactor]`, clamped)
is always `≥ 0`. -/
theorem CalculateBackoff_formula_monotone_capped_nonneg
    (k : ℕ) (initialDelay maxDelay jitterFactor r : ℚ)
    (hk : 1 ≤ k) (hinit : 0 ≤ initialDelay) :
    CalculateBackoffPre k initialDelay maxDelay
        = min maxDelay (initialDelay * 2 ^ (k - 1)) ∧
    (∀ k', k ≤ k' →
        CalculateBackoffPre k initialDelay maxDelay
          ≤ CalculateBackoffPre k' initialDelay maxDelay) ∧
    CalculateBackoffPre k initialDelay maxDelay ≤ maxDelay ∧
    0 ≤ CalculateBackoff k initialDelay maxDelay jitterFactor r := by
  have hform : ∀ m : ℕ, CalculateBackoffPre m initialDelay maxDelay
      = min maxDelay (initialDelay * 2 ^ (m - 1)) := by
    intro m
    unfold CalculateBackoffPre
    dsimp only
    split_ifs with h
    · exact (min_eq_left h.le).symm
    · exact (min_eq_right (not_lt.mp h)).symm
  refine ⟨hform k, ?_, ?_, ?_⟩
  · intro k' hkk
    rw [hform k, hform k']
    refine min_le_min le_rfl ?_
    exact mul_le_mul_of_nonneg_left
      (pow_le_pow_right₀ (by norm_num) (by omega)) hinit
  · rw [hform k]; exact min_le_left _ _
  · have hcl : ∀ x : ℚ, 0 ≤ (if x < 0 then (0 : ℚ) else x) := by
      intro x
      split_ifs with h
      · exact le_refl 0
      · exact not_lt.mp h
    exact hcl _

/-- Witness for C5 at attempt 3 with the default configuration
(1s initial, 32s cap, jitter fraction 0.1) and random draw 1/2. -/
theorem CalculateBackoff_formula_monotone_capped_nonneg_witness :
    CalculateBackoffPre 3 1 32 = min 32 (1 * 2 ^ (3 - 1)) ∧
    0 ≤ CalculateBackoff 3 1 32 (1 / 10) (1 / 2) := by
  have h := CalculateBackoff_formula_monotone_capped_nonneg 3 1 32 (1 / 10) (1 / 2)
    (by norm_num) (by norm_num)
  exact ⟨h.1, h.2.2.2⟩

/-- **C9.** `IsQnoteProcessing` (the `LoadOrStore` claim) reports "not
already claimed" and stores the id iff the id was absent;
`MarkProcessingComplete` (the `Delete` release) is idempotent — any
positive number of releases equals one, the id is gone afterwards, and
releasing an unclaimed id is a no-op — and a claim after a release
succeeds again. -/
theorem processing_guard_claim_release_contract :
    (∀ (l : List String) (id : String),
        ((IsQnoteProcessing l id).1 = false ↔ id ∉ l) ∧
        id ∈ (IsQnoteProcessing l id).2) ∧
    (∀ (l : List String) (id : String) (n : ℕ),
        (fun s => MarkProcessingComplete s id)^[n + 1] l
          = MarkProcessingComplete l id) ∧
    (∀ (l : List String) (id : String), id ∉ MarkProcessingComplete l id) ∧
    (∀ (l : List String) (id : String), id ∉ l →
        MarkProcessingComplete l id = l) ∧
    (∀ (l : List String) (id : String),
        (IsQnoteProcessing (MarkProcessingComplete l id) id).1 = false) := by
  refine ⟨?_, ?_, not_mem_markProcessingComplete,
    markProcessingComplete_of_not_mem, ?_⟩
  · intro l id
    unfold IsQnoteProcessing
    split_ifs with h <;> simp [h]
  · intro l id n
    induction n with
    | zero => simp
    | succ m ih =>
      rw [Function.iterate_succ_apply', ih, markProcessingComplete_idem]
  · intro l id
    unfold IsQnoteProcessing
    rw [if_neg (not_mem_markProcessingComplete l id)]

/-- Witness for C9: on the concrete set `{"a"}`, releasing the unclaimed
id `"q"` is a no-op, and a fresh claim of `"q"` stores it. -/
theorem processing_guard_claim_release_contract_witness :
    MarkProcessingComplete ["a"] "q" = ["a"] ∧
    "q" ∈ (IsQnoteProcessing [] "q").2 := by
  exact ⟨processing_guard_claim_release_contract.2.2.2.1 ["a"] "q" (by decide),
    (processing_guard_claim_release_contract.1 [] "q").2⟩

/-- If attempts `attempt .. j-1` fail with retryable errors and attempt
`j` fails with a non-retryable error, the Gemini retry loop stops at
attempt `j` with that error. -/
lemma geminiRetryLoop_nonretryable_at
    (outcomes : ℕ → Except GeminiErr String) (e : GeminiErr)
    (hnr : e.retryable = false) :
    ∀ (left attempt j : ℕ), attempt ≤ j → j ≤ attempt + left →
      (∀ i, attempt ≤ i → i < j →
        ∃ ei, outcomes i = .error ei ∧ ei.retryable = true) →
      outcomes j = .error e →
      geminiRetryLoop outcomes attempt (left + 1) = (.error e, j) := by
  intro left
  induction left with
  | zero =>
    intro attempt j h1 h2 hmid hj
    have hje : j = attempt := by omega
    subst hje
    simp [geminiRetryLoop, hj, hnr]
  | succ m ih =>
    intro attempt j h1 h2 hmid hj
    rcases Nat.eq_or_lt_of_le h1 with heq | hlt
    · subst heq
      simp [geminiRetryLoop, hj, hnr]
    · obtain ⟨ea, hea, hra⟩ := hmid attempt le_rfl hlt
      rw [show m + 1 + 1 = m + 2 from rfl]
      have hrec := ih (attempt + 1) j hlt (by omega)
        (fun i hi hij => hmid i (by omega) hij) hj
      simpa [geminiRetryLoop, hea, hra] using hrec

/-- When attempts `attempt .. attempt+left-1` fail with retryable errors
and attempt `attempt+left` also fails, the Gemini retry loop runs out
its budget and keeps the last attempt's error (whatever its class). -/
lemma geminiRetryLoop_all_fail
    (outcomes : ℕ → Except GeminiErr String) (es : ℕ → GeminiErr) :
    ∀ (left attempt : ℕ),
      (∀ i, attempt ≤ i → i ≤ attempt + left → outcomes i = .error (es i)) →
      (∀ i, attempt ≤ i → i < attempt + left → (es i).retryable = true) →
      geminiRetryLoop outcomes attempt (left + 1)
        = (.error (es (attempt + left)), attempt + left) := by
  intro left
  induction left with
  | zero =>
    intro attempt hout _hret
    have h := hout attempt le_rfl (by omega)
    cases hr : (es attempt).retryable <;> simp [geminiRetryLoop, h, hr]
  | succ m ih =>
    intro attempt hout hret
    have hcur := hout attempt le_rfl (by omega)
    have hrcur := hret attempt le_rfl (by omega)
    have harith : attempt + (m + 1) = (attempt + 1) + m := by omega
    rw [harith, show m + 1 + 1 = m + 2 from rfl]
    have hrec := ih (attempt + 1)
      (fun i hi hij => hout i (by omega) (by omega))
      (fun i hi hij => hret i (by omega) (by omega))
    simpa [geminiRetryLoop, hcur, hrcur] using hrec

/-- When every attempt fails, `retryGo` runs out its budget and keeps
the last attempt's error. -/
lemma retryGo_all_fail (es : ℕ → String) :
    ∀ (left attempt : ℕ),
      retryGo (fun i => some (es i)) attempt (left + 1)
        = ⟨attempt + left, some (es (attempt + left)), false⟩ := by
  intro left
  induction left with
  | zero => intro attempt; simp [retryGo]
  | succ m ih =>
    intro attempt
    have harith : attempt + (m + 1) = (attempt + 1) + m := by omega
    rw [harith, show m + 1 + 1 = m + 2 from rfl]
    simpa [retryGo] using ih (attempt + 1)

/-- **C6.** The retry wrapper around the outbound Gemini call classifies
every failure: whenever a non-retryable error arrives at any attempt
position `j` (after any run of retryable failures), the loop aborts at
attempt `j` with that error and makes no further attempts; when the loop
runs all of its attempts (every failure before the last being
retryable), the error returned is the last attempt's, whatever its
class.  The generic `RetryWithResult` likewise returns the last
attempt's error when its budget is exhausted. -/
theorem retry_classification_and_last_error :
    (∀ (outcomes : ℕ → Except GeminiErr String) (mr j : ℕ) (e : GeminiErr),
        1 ≤ j → j ≤ mr →
        (∀ i, 1 ≤ i → i < j →
          ∃ ei, outcomes i = .error ei ∧ ei.retryable = true) →
        outcomes j = .error e → e.retryable = false →
        AnswerQuestionRetry outcomes mr = (.error e, j)) ∧
    (∀ (outcomes : ℕ → Except GeminiErr String) (es : ℕ → GeminiErr) (mr : ℕ),
        1 ≤ mr →
        (∀ i, 1 ≤ i → i ≤ mr → outcomes i = .error (es i)) →
        (∀ i, 1 ≤ i → i < mr → (es i).retryable = true) →
        AnswerQuestionRetry outcomes mr = (.error (es mr), mr)) ∧
    (∀ (maxAttempts : ℕ) (es : ℕ → String),
        1 ≤ maxAttempts →
        RetryWithResult maxAttempts (fun i => some (es i))
          = ⟨maxAttempts, some (es maxAttempts), false⟩) := by
  refine ⟨?_, ?_, ?_⟩
  · intro outcomes mr j e hj hjmr hmid hout hnr
    obtain ⟨m, rfl⟩ : ∃ m, mr = m + 1 := ⟨mr - 1, by omega⟩
    exact geminiRetryLoop_nonretryable_at outcomes e hnr m 1 j hj (by omega)
      (fun i hi hij => hmid i hi hij) hout
  · intro outcomes es mr hmr hout hret
    obtain ⟨m, rfl⟩ : ∃ m, mr = m + 1 := ⟨mr - 1, by omega⟩
    have h := geminiRetryLoop_all_fail outcomes es m 1
      (fun i hi hij => hout i hi (by omega))
      (fun i hi hij => hret i hi (by omega))
    rw [AnswerQuestionRetry, h, Nat.add_comm 1 m]
  · intro maxAttempts es hma
    obtain ⟨m, rfl⟩ : ∃ m, maxAttempts = m + 1 := ⟨maxAttempts - 1, by omega⟩
    have h := retryGo_all_fail es m 1
    rw [RetryWithResult, if_neg (by omega : ¬m + 1 = 0), h, Nat.add_comm 1 m]

/-- Witness for C6: a retryable 503 on attempt 1 followed by a
non-retryable auth error on attempt 2 makes the 5-attempt Gemini retry
loop abort at attempt 2 with the auth error — classification applies to
every failure, not just the first. -/
theorem retry_classification_and_last_error_witness :
    AnswerQuestionRetry
        (fun i => if i = 1 then .error ⟨"503", true⟩
                  else .error ⟨"auth", false⟩) 5
      = (.error ⟨"auth", false⟩, 2) :=
  retry_classification_and_last_error.1
    (fun i => if i = 1 then .error ⟨"503", true⟩ else .error ⟨"auth", false⟩)
    5 2 ⟨"auth", false⟩ (by omega) (by omega)
    (fun i hi hij => by
      have hi1 : i = 1 := by omega
      subst hi1
      exact ⟨⟨"503", true⟩, rfl, rfl⟩)
    rfl rfl

/-- `true` iff consecutive elements of the list are strictly
increasing. -/
def strictlyIncreasing : List ℕ → Bool
  | [] => true
  | [_] => true
  | a :: b :: rest => a < b && strictlyIncreasing (b :: rest)

/-- **C8 counterexample.** Three successive disconnect–reconnect cycles
(each reconnect succeeding) sleep `[1, 1, 1]` seconds — the delays are
*not* strictly increasing, because a successful reconnect resets the
backoff before the next disconnect is handled.  The claim's
"successive disconnect-reconnect cycles use strictly increasing
(pre-cap) delays" therefore fails on this trace. -/
theorem reconnect_disconnect_delays_not_increasing :
    (SubscribeAndDetectTriggers
        [ConnOutcome.streamedThenDisconnected, .streamedThenDisconnected,
         .streamedThenDisconnected]).1 = [1, 1, 1] ∧
    strictlyIncreasing
        (SubscribeAndDetectTriggers
          [ConnOutcome.streamedThenDisconnected, .streamedThenDisconnected,
           .streamedThenDisconnected]).1 = false := by
  constructor
  · decide
  · decide

/-- **C8 (amended).** On end-of-input or a read error the reconnector
sleeps the current backoff and reconnects.  The backoff doubles (capped
at 30s) only across *consecutive failed subscription attempts*, where
the pre-cap delays are strictly increasing (`1, 2, 4, 8, 16`, then cap),
and the loop gives up permanently once more than `maxRetries = 10`
consecutive subscription attempts fail; a successful reconnect resets
the backoff and the retry counter to their initial values, so successive
disconnect–reconnect cycles whose reconnects succeed all sleep the same
initial 1-second delay. -/
theorem reconnect_backoff_doubling_reset_giveup :
    SubscribeAndDetectTriggers (List.replicate maxRetries .subscribeFailed)
      = ([1, 2, 4, 8, 16, 30, 30, 30, 30, 30], .stillRunning) ∧
    strictlyIncreasing
      ((SubscribeAndDetectTriggers
          (List.replicate maxRetries .subscribeFailed)).1.takeWhile
        (fun d => d < maxBackoff)) = true ∧
    SubscribeAndDetectTriggers (List.replicate (maxRetries + 1) .subscribeFailed)
      = ([1, 2, 4, 8, 16, 30, 30, 30, 30, 30], .gaveUp) ∧
    (∀ (rest : List ConnOutcome) (backoff retryCount : ℕ),
        reconnectLoop (.streamedThenDisconnected :: rest) backoff retryCount
          = (initialBackoff :: (reconnectLoop rest initialBackoff 0).1,
             (reconnectLoop rest initialBackoff 0).2)) ∧
    (∀ n : ℕ,
        (SubscribeAndDetectTriggers
            (List.replicate n .streamedThenDisconnected)).1
          = List.replicate n initialBackoff) := by
  refine ⟨by decide, by decide, by decide, fun rest backoff retryCount => rfl, ?_⟩
  intro n
  induction n with
  | zero => rfl
  | succ m ih =>
    simpa [SubscribeAndDetectTriggers, List.replicate_succ, reconnectLoop]
      using ih

/-- A workflow environment in which every external call succeeds, one
answer slot succeeds, and three fail. -/
def okEnv : WfEnv :=
  { initialWidgetsOk := true
    personasPresent1 := true
    personaHelperID := "hp"
    createPersonasOk := true
    refreshWidgetsOk := true
    personasPresent2 := true
    questionPresent := true
    questionHelperID := "hq"
    questionDetected := true
    geminiInitOk := true
    personasFetchOk := true
    slots := [⟨"a1", none⟩, ⟨"", some "rate limited"⟩,
              ⟨"", some "rate limited"⟩, ⟨"", some "rate limited"⟩]
    createResult := fun i => some ("note" ++ toString i)
    answerHelperID := "ha" }

/-- The same environment, but the initial `GetWidgets` call fails. -/
def widgetsFailEnv : WfEnv := { okEnv with initialWidgetsOk := false }

/-- **C1.** The claim that the workflow releases the processing claim on
*every* exit path fails in the code: when the initial widget fetch
errors, `HandleAIQuestion` returns early with the triggering id still in
`qnoteProcessingList` (only the timeout path and
`AnswerQuestionWithCache`'s deferred delete release it), so a later
trigger for the same id is ignored forever as "already processing". -/
theorem HandleAIQuestion_leaks_claim_on_widget_fetch_failure :
    (HandleAIQuestion widgetsFailEnv WfState.init "q1").2
      = WfExit.widgetsFetchFailed ∧
    "q1" ∈ (HandleAIQuestion widgetsFailEnv WfState.init "q1").1.processing ∧
    (HandleAIQuestion okEnv
        (HandleAIQuestion widgetsFailEnv WfState.init "q1").1 "q1").2
      = WfExit.alreadyProcessing := by
  refine ⟨rfl, ?_, rfl⟩
  show "q1" ∈ ["q1"]
  exact List.mem_singleton.mpr rfl

/-- A record satisfying every condition of classification rule 5: a
note-like record with a non-empty id, the question-note sentinel title,
and a background color matching its active registration. -/
def rule5Record : RawRec :=
  ⟨"Note".toList, "q1".toList, "New_AI_Question".toList,
   "what is the plan?".toList, "#ffe4b3".toList⟩

/-- An active registration for `rule5Record`'s id expecting exactly its
background color. -/
def rule5Handlers : List (List Char × List Char) :=
  [("q1".toList, "#ffe4b3".toList)]

/-- **C2 counterexample.** `rule5Record` satisfies every condition of
rule 5 (note-like, non-empty id, sentinel title, active registration
with matching expected color), yet `processWidgetEvent` emits nothing
and leaves the debounce state untouched — nothing is stored as the
key's latest value and no timer is scheduled — because the rule-2 branch
consumes every sentinel-titled note before rule 5 can run. -/
theorem processWidgetEvent_rule5_counterexample :
    goEqualFold rule5Record.title "New_AI_Question".toList = true ∧
    rule5Record.widType = "Note".toList ∧
    rule5Record.id ≠ [] ∧
    alookup rule5Handlers rule5Record.id = some "#ffe4b3".toList ∧
    goToLower (goTrimSpace rule5Record.bg)
      = goToLower (goTrimSpace "#ffe4b3".toList) ∧
    processWidgetEvent rule5Handlers DebounceState.init rule5Record
      = (none, DebounceState.init) ∧
    alookup (processWidgetEvent rule5Handlers DebounceState.init
        rule5Record).2.latestEvents "q1".toList = none ∧
    alookup (processWidgetEvent rule5Handlers DebounceState.init
        rule5Record).2.timers "q1".toList = none := by
  refine ⟨by decide, by decide, by decide, by decide, by decide, ?_, ?_, ?_⟩
  · decide
  · decide
  · decide

/-- **C2 (amended).** Rules are evaluated in a fixed priority order with
the first match winning, but rule 5 is unreachable: every note-like
record whose title case-insensitively equals the question-note sentinel
is consumed by the rule-2 branch — which emits `QuestionNoteCreated`
exactly when the background color is the unclaimed white (6- or
8-digit form) and otherwise emits nothing — so no record is ever routed
through the debounce gate, whose state is returned unchanged. -/
theorem processWidgetEvent_rule5_unreachable
    (handlers : List (List Char × List Char)) (st : DebounceState)
    (raw : RawRec)
    (hType : raw.widType = "Note".toList)
    (hTitle : goEqualFold raw.title "New_AI_Question".toList = true) :
    processWidgetEvent handlers st raw
      = (if goToLower (goTrimSpace raw.bg) = "#ffffffff".toList ∨
            goToLower (goTrimSpace raw.bg) = "#ffffff".toList
         then some ⟨.newAIQuestion, ⟨raw.id, raw.widType, raw.title, raw.text⟩⟩
         else none,
         st) := by
  have hne : ¬raw.widType = "Image".toList := by
    rw [hType]; decide
  unfold processWidgetEvent
  rw [if_neg (by exact fun h => hne h.1), if_pos ⟨hType, hTitle⟩]

/-- Witness for C2 (amended): a differently-keyed sentinel note with a
registered handler and matching amber color is consumed by rule 2 with
no trigger and no debounce-state change. -/
theorem processWidgetEvent_rule5_unreachable_witness :
    processWidgetEvent [("n7".toList, "#ffe4b3".toList)] DebounceState.init
        ⟨"Note".toList, "n7".toList, "new_ai_question".toList,
         "why now?".toList, "#ffe4b3".toList⟩
      = (none, DebounceState.init) := by
  rw [processWidgetEvent_rule5_unreachable [("n7".toList, "#ffe4b3".toList)]
    DebounceState.init
    ⟨"Note".toList, "n7".toList, "new_ai_question".toList,
     "why now?".toList, "#ffe4b3".toList⟩ (by decide) (by decide)]
  decide

/-- A note-like event with the sentinel title, a non-empty id and a
color matching its active registration enters the debounce body. -/
lemma handleQnote_registered
    (handlers : List (List Char × List Char)) (st : DebounceState)
    (k title v bg color : List Char)
    (hk : k ≠ [])
    (htitle : goEqualFold title "New_AI_Question".toList = true)
    (hreg : alookup handlers k = some color)
    (hbg : goToLower (goTrimSpace bg) = goToLower (goTrimSpace color)) :
    handleQnoteQuestionDetection handlers st ⟨k, "Note".toList, title, v⟩ bg
      = observeDebounce st ⟨k, "Note".toList, title, v⟩ := by
  have hguard : ¬((WidgetEvent.mk k "Note".toList title v).type ≠ "Note".toList ∨
      (WidgetEvent.mk k "Note".toList title v).id = [] ∨
      goEqualFold (WidgetEvent.mk k "Note".toList title v).title
        "New_AI_Question".toList = false) := by
    push_neg
    refine ⟨rfl, hk, ?_⟩
    rw [htitle]
    exact fun h => nomatch h
  unfold handleQnoteQuestionDetection
  rw [if_neg hguard]
  dsimp only
  rw [hreg]
  dsimp only
  rw [if_pos hbg]

/-- **C3.** When a debounce-registered key observes `v1, v2, v3` within
the quiet period (so each later observation stops the previous timer),
and then the three scheduled timers expire, exactly one
`QuestionTextDetected` trigger fires: the two stopped timers emit
nothing, and the surviving timer reads the key's *current* latest value,
emitting one trigger that carries `v3` — provided `v3` satisfies the
content predicate `IsQuestion`.  No trigger carries `v1` or `v2`. -/
theorem debounce_coalesces_to_latest_value
    (k color v1 v2 v3 : List Char)
    (hk : k ≠ [])
    (hq : IsQuestion v3 = true) :
    runGateTrace [(k, color)]
      [.obs ⟨k, "Note".toList, "New_AI_Question".toList, v1⟩ color,
       .obs ⟨k, "Note".toList, "New_AI_Question".toList, v2⟩ color,
       .obs ⟨k, "Note".toList, "New_AI_Question".toList, v3⟩ color,
       .fire k 0, .fire k 1, .fire k 2]
      DebounceState.init
      = [⟨.qnoteQuestionDetected,
          ⟨k, "Note".toList, "New_AI_Question".toList, v3⟩⟩] := by
  have hreg : alookup [(k, color)] k = some color := by simp [alookup]
  have hobs := fun (st : DebounceState) (v : List Char) =>
    handleQnote_registered [(k, color)] st k "New_AI_Question".toList v color color
      hk (by decide) hreg rfl
  have s1 : handleQnoteQuestionDetection [(k, color)] DebounceState.init
      ⟨k, "Note".toList, "New_AI_Question".toList, v1⟩ color
      = ⟨[(k, ⟨k, "Note".toList, "New_AI_Question".toList, v1⟩)],
         [(k, 0)], [], 1⟩ := by
    rw [hobs]
    simp [observeDebounce, DebounceState.init, ainsert, alookup]
  have s2 : handleQnoteQuestionDetection [(k, color)]
      ⟨[(k, ⟨k, "Note".toList, "New_AI_Question".toList, v1⟩)], [(k, 0)], [], 1⟩
      ⟨k, "Note".toList, "New_AI_Question".toList, v2⟩ color
      = ⟨[(k, ⟨k, "Note".toList, "New_AI_Question".toList, v2⟩)],
         [(k, 1)], [0], 2⟩ := by
    rw [hobs]
    simp [observeDebounce, ainsert, alookup]
  have s3 : handleQnoteQuestionDetection [(k, color)]
      ⟨[(k, ⟨k, "Note".toList, "New_AI_Question".toList, v2⟩)], [(k, 1)], [0], 2⟩
      ⟨k, "Note".toList, "New_AI_Question".toList, v3⟩ color
      = ⟨[(k, ⟨k, "Note".toList, "New_AI_Question".toList, v3⟩)],
         [(k, 2)], [1, 0], 3⟩ := by
    rw [hobs]
    simp [observeDebounce, ainsert, alookup]
  simp only [runGateTrace]
  rw [s1, s2, s3]
  simp [fireDebounceTimer, alookup, hq]

/-- Witness for C3: three rapid edits of note `q1`, the last one a
question, produce exactly one trigger carrying the last text. -/
theorem debounce_coalesces_to_latest_value_witness :
    runGateTrace [("q1".toList, "#ffe4b3".toList)]
      [.obs ⟨"q1".toList, "Note".toList, "New_AI_Question".toList,
         "draft".toList⟩ "#ffe4b3".toList,
       .obs ⟨"q1".toList, "Note".toList, "New_AI_Question".toList,
         "draft two".toList⟩ "#ffe4b3".toList,
       .obs ⟨"q1".toList, "Note".toList, "New_AI_Question".toList,
         "what changed?".toList⟩ "#ffe4b3".toList,
       .fire "q1".toList 0, .fire "q1".toList 1, .fire "q1".toList 2]
      DebounceState.init
      = [⟨.qnoteQuestionDetected,
          ⟨"q1".toList, "Note".toList, "New_AI_Question".toList,
           "what changed?".toList⟩⟩] :=
  debounce_coalesces_to_latest_value "q1".toList "#ffe4b3".toList
    "draft".toList "draft two".toList "what changed?".toList
    (by decide) (by decide)

/-- **C4.** After the parallel answer-generation stage, the orchestrator
counts slots with a non-empty answer and no error; below the minimum
(`MinRequiredAnswers = 1`) it aborts with no result entity created;
otherwise it proceeds, creating result entities only for the successful
slots: a failed slot's `answerNoteIDs` entry stays `""` with no
`CreateNote` call, a successful slot gets exactly one `CreateNote` call
(the attempt indices are exactly the successful ones, without
duplicates, so failed slots are never retried). -/
theorem answer_threshold_partial_success
    (env : WfEnv) (st : WfState) (noteID : String)
    (hg : env.geminiInitOk = true) (hp : env.personasFetchOk = true) :
    (successfulAnswers env.slots < MinRequiredAnswers →
        (AnswerQuestionWithCache env st noteID).2.1 = .belowMinimum ∧
        (AnswerQuestionWithCache env st noteID).2.2 = []) ∧
    (MinRequiredAnswers ≤ successfulAnswers env.slots →
        (AnswerQuestionWithCache env st noteID).2.1 = .completed ∧
        (AnswerQuestionWithCache env st noteID).2.2
          = createAnswerNotes env.slots env.createResult) ∧
    (∀ (i : ℕ) (s : Slot), env.slots.get? i = some s →
        slotSuccessful s = false →
        (createAnswerNotes env.slots env.createResult).get? i = some "") ∧
    (∀ (i : ℕ) (s : Slot), env.slots.get? i = some s →
        slotSuccessful s = true →
        (createAnswerNotes env.slots env.createResult).get? i
          = some (match env.createResult i with
                  | some noteId => noteId
                  | none => "")) ∧
    (answerNoteAttempts env.slots).Nodup := by
  refine ⟨?_, ?_, ?_, ?_, ?_⟩
  · intro h
    simp [AnswerQuestionWithCache, hg, hp, h]
  · intro h
    simp [AnswerQuestionWithCache, hg, hp, Nat.not_lt.mpr h]
  · intro i s hs hfail
    rw [List.get?_eq_getElem?] at hs
    simp [createAnswerNotes, List.getElem?_map, List.getElem?_enum, hs, hfail]
  · intro i s hs hsucc
    rw [List.get?_eq_getElem?] at hs
    simp [createAnswerNotes, List.getElem?_map, List.getElem?_enum, hs, hsucc]
  · exact ((List.nodup_enum_map_fst env.slots).sublist
      ((List.filter_sublist _).map _))

/-- Witness for C4: with 4 slots, 1 success and 3 failures, the workflow
proceeds and produces exactly 1 result entity. -/
theorem answer_threshold_partial_success_witness :
    (AnswerQuestionWithCache okEnv WfState.init "q1").2.1 = WfExit.completed ∧
    (AnswerQuestionWithCache okEnv WfState.init "q1").2.2
      = ["note0", "", "", ""] ∧
    (((AnswerQuestionWithCache okEnv WfState.init "q1").2.2.filter
        (fun s => s ≠ "")).length = 1) := by
  have h := (answer_threshold_partial_success okEnv WfState.init "q1"
    rfl rfl).2.1 (by decide)
  refine ⟨h.1, ?_, ?_⟩
  · rw [h.2]; decide
  · rw [h.2]; decide

/-- A workflow environment whose question never arrives: the note's text
lacks the sentinel and no question is detected before the timeout. -/
def timeoutEnv : WfEnv :=
  { okEnv with questionPresent := false, questionDetected := false }

/-- **C7.** If the triggering note lacks the required question text, the
orchestrator tracks a wait helper note and polls until the bounded
timeout (default 5 minutes = 300s, configurable through
`QUESTION_TIMEOUT`); when no poll within the window sees text ending in
`?`, the wait reports timeout and the workflow creates the distinct
timeout-notice note, removes the wait helper note, releases the
processing claim, and returns normally with the `questionTimeout`
exit (not an error). -/
theorem question_timeout_normal_abort
    (env : WfEnv) (st : WfState) (noteID : String)
    (hnp : noteID ∉ st.processing)
    (hw : env.initialWidgetsOk = true)
    (hp : env.personasPresent1 = true)
    (hq : env.questionPresent = false)
    (hd : env.questionDetected = false) :
    (HandleAIQuestion env st noteID).2 = .questionTimeout ∧
    noteID ∈ (HandleAIQuestion env st noteID).1.timeoutNotes ∧
    alookup (HandleAIQuestion env st noteID).1.helperNotes noteID = none ∧
    noteID ∉ (HandleAIQuestion env st noteID).1.processing ∧
    (∀ parseDur, getQuestionTimeout parseDur none = DefaultQuestionTimeout) ∧
    (∀ parseDur s n, goAtoi s = some n →
        getQuestionTimeout parseDur (some s) = n) ∧
    WaitForQuestionText [] = false ∧
    (∀ (polls : List (Option (List Char))) (t : List Char),
        some t ∈ polls → goEndsWith (goTrimSpace t) ['?'] = true →
        WaitForQuestionText polls = true) := by
  have hmain : HandleAIQuestion env st noteID
      = ({ st with
            processing := MarkProcessingComplete (noteID :: st.processing) noteID,
            helperNotes :=
              aerase (ainsert st.helperNotes noteID env.questionHelperID) noteID,
            timeoutNotes := noteID :: st.timeoutNotes },
         .questionTimeout) := by
    unfold HandleAIQuestion
    rw [IsQnoteProcessing, if_neg hnp]
    dsimp only
    simp only [hw, hp, hq, hd, Bool.false_eq_true, Bool.true_eq_false,
      eq_self_iff_true, if_true, if_false, ite_true, ite_false]
  rw [hmain]
  refine ⟨rfl, List.mem_cons_self _ _, alookup_aerase_self _ _,
    not_mem_markProcessingComplete _ _, fun parseDur => rfl, ?_, rfl, ?_⟩
  · intro parseDur s n h
    simp [getQuestionTimeout, h]
  · intro polls t hmem hend
    simp only [WaitForQuestionText, List.any_eq_true]
    exact ⟨some t, hmem, hend⟩

/-- Witness for C7: a concrete run in which the question never arrives
takes the timeout exit, creates the timeout notice, removes the tracked
helper note and releases the claim. -/
theorem question_timeout_normal_abort_witness :
    (HandleAIQuestion timeoutEnv WfState.init "q9").2 = WfExit.questionTimeout ∧
    "q9" ∈ (HandleAIQuestion timeoutEnv WfState.init "q9").1.timeoutNotes ∧
    alookup (HandleAIQuestion timeoutEnv WfState.init "q9").1.helperNotes "q9"
      = none ∧
    "q9" ∉ (HandleAIQuestion timeoutEnv WfState.init "q9").1.processing := by
  have h := question_timeout_normal_abort timeoutEnv WfState.init "q9"
    (by decide) rfl rfl rfl rfl
  exact ⟨h.1, h.2.1, h.2.2.1, h.2.2.2.1⟩

end AIPersonas
